import Mathlib

/-
  Verification of the k8s-cfgenerator CLI (cmd/cfgenerator/main.go).

  The embedding models `run` from main.go as a pure function over an
  environment of external effects (interpreter lookup, input open,
  generation, output open, per-write outcome), returning the error result
  together with a trace of the file-system effects the run performed.
  The flag-handling of `main` is modelled by `mainConfig`, and the volume
  collector (whose Go source lives in an internal package that is not part
  of the provided sources) is modelled from the specification.
-/

namespace CfGenerator

/-- The two interpreter variants of the registry.  Modelled from the spec:
the internal `interpreter` package is not among the provided sources; the
spec fixes a closed set of variants `plain` and `jsonnet`. -/
inductive Interpreter where
  | plain
  | jsonnet
  deriving DecidableEq

/-- Modelled from the spec: `interpreter.Get(name)` is a fixed, process-wide
table with exactly the two entries "plain" and "jsonnet"; unknown names
yield `found = false` (here `none`). -/
def interpreterGet (name : String) : Option Interpreter :=
  if name = "plain" then some Interpreter.plain
  else if name = "jsonnet" then some Interpreter.jsonnet
  else none

/-- The errors `run` can return, one constructor per `fmt.Errorf` wrap in
main.go, each carrying exactly the data the Go format string interpolates. -/
inductive RunError where
  | unsupportedInterpreter (name : String)
  | cantOpenInput (path : String) (err : String)
  | cantGenerate (err : String)
  | cantOpenOutput (path : String) (err : String)
  deriving DecidableEq

/-- One `fmt.Fprint(outputs[i], content)` call: the destination path, the
content handed to the write, and whether the write succeeded (the Go code
discards this outcome). -/
structure WriteEvent where
  path : String
  content : String
  ok : Bool
  deriving DecidableEq

/-- The outcomes of the external effects `run` performs, as oracles:
`interpGet` is `interpreter.Get`, `openInput` is `file.OpenInput`,
`generate` is `internal.Generate` (given the runtime and the volume paths),
`openOutput` is `file.OpenOutput`, and `writeOk i` is the success of the
i-th `fmt.Fprint`. -/
structure Env where
  interpGet : String → Option Interpreter
  openInput : String → Except String Unit
  generate : Interpreter → List String → Except String String
  openOutput : String → Except String Unit
  writeOk : Nat → Bool

/-- Trace of the file-system effects a call to `run` performed:
whether the input was opened, whether `internal.Generate` was invoked
(volume paths are only ever read inside it), which output destinations
were opened (in order), which were closed (deferred closes run in reverse
order), and the writes attempted. -/
structure Trace where
  inputOpened : Bool
  generateCalled : Bool
  outputsOpened : List String
  outputsClosed : List String
  writes : List WriteEvent
  deriving DecidableEq

/-- The first loop of `run`: open each output path in order; the first
failure aborts with the wrapped error; returns the error (if any) together
with the paths successfully opened before it. -/
def openOutputsLoop (env : Env) : List String → Option RunError × List String
  | [] => (none, [])
  | p :: rest =>
    match env.openOutput p with
    | Except.error e => (some (RunError.cantOpenOutput p e), [])
    | Except.ok _ =>
      match openOutputsLoop env rest with
      | (err, opened) => (err, p :: opened)

/-- The second loop of `run`: `for i := range outputs { fmt.Fprint(outputs[i], content) }`.
Every opened output is visited; the write outcome is recorded but never
inspected. -/
def writeLoop (env : Env) (content : String) : Nat → List String → List WriteEvent
  | _, [] => []
  | i, p :: rest =>
    { path := p, content := content, ok := env.writeOk i } :: writeLoop env content (i + 1) rest

/-- Embedding of `run(interpreterName, inputPath, outputPaths, volumes)`
from main.go: interpreter lookup, input open, generation, output opens,
then the fan-out writes; each failure returns the corresponding wrapped
error, and the trace records the effects performed up to that point. -/
def run (env : Env) (interpreterName : String) (inputPath : String)
    (outputPaths : List String) (volumes : List String) : Option RunError × Trace :=
  match env.interpGet interpreterName with
  | none =>
    (some (RunError.unsupportedInterpreter interpreterName),
     { inputOpened := false, generateCalled := false, outputsOpened := [],
       outputsClosed := [], writes := [] })
  | some runtime =>
    match env.openInput inputPath with
    | Except.error e =>
      (some (RunError.cantOpenInput inputPath e),
       { inputOpened := false, generateCalled := false, outputsOpened := [],
         outputsClosed := [], writes := [] })
    | Except.ok _ =>
      match env.generate runtime volumes with
      | Except.error e =>
        (some (RunError.cantGenerate e),
         { inputOpened := true, generateCalled := true, outputsOpened := [],
           outputsClosed := [], writes := [] })
      | Except.ok content =>
        match openOutputsLoop env outputPaths with
        | (some err, opened) =>
          (some err,
           { inputOpened := true, generateCalled := true, outputsOpened := opened,
             outputsClosed := opened.reverse, writes := [] })
        | (none, opened) =>
          (none,
           { inputOpened := true, generateCalled := true, outputsOpened := opened,
             outputsClosed := opened.reverse, writes := writeLoop env content 0 opened })

/-- `main`: a non-nil error from `run` is printed and the process exits 1,
otherwise it exits 0. -/
def exitCode (result : Option RunError × Trace) : Nat :=
  match result.1 with
  | none => 0
  | some _ => 1

/-- `stringsFlag.Set`: each `-out` occurrence appends its value. -/
def stringsFlagSet (s : List String) (value : String) : List String :=
  s ++ [value]

/-- The configuration `main` assembles from the flags. -/
structure Config where
  InterpreterName : String
  In : String
  Outs : List String
  deriving DecidableEq

/-- Embedding of the flag handling in `main`: `-interpreter` defaults to
"jsonnet", `-in` defaults to "-", each `-out` occurrence is appended via
`stringsFlag.Set`, and when no `-out` was given a single "-" is appended. -/
def mainConfig (interpFlag : Option String) (inFlag : Option String)
    (outOccurrences : List String) : Config :=
  let c : Config :=
    { InterpreterName := interpFlag.getD "jsonnet"
      In := inFlag.getD "-"
      Outs := outOccurrences.foldl stringsFlagSet [] }
  if c.Outs.length = 0 then { c with Outs := c.Outs ++ ["-"] } else c

/- ===== Volume collector, modelled from the spec ===== -/

/-- Modelled from the spec: a file-system node is a regular file with a
content, or a flat directory of named entries. -/
inductive Node where
  | file (content : String)
  | dir (entries : List (String × Node))

/-- A file system: paths resolve to a node or do not exist. -/
abbrev FS := String → Option Node

/-- The variable mapping: an association list from variable name to value,
with at most one entry per key by construction of `mapInsert`. -/
abbrev Mapping := List (String × String)

/-- Mapping insert with map semantics: overwrite the entry with the same
key in place, or append a fresh entry. -/
def mapInsert : Mapping → String → String → Mapping
  | [], k, v => [(k, v)]
  | (k', v') :: rest, k, v =>
    if k' = k then (k, v) :: rest else (k', v') :: mapInsert rest k v

/-- Mapping lookup by exact key. -/
def lookupM : Mapping → String → Option String
  | [], _ => none
  | (k', v) :: rest, k => if k' = k then some v else lookupM rest k

/-- The characters of the last `/`-separated component: scan the path,
restarting the accumulator after every separator. -/
def baseNameAux : List Char → List Char → List Char
  | acc, [] => acc
  | acc, c :: rest => if c = '/' then baseNameAux [] rest else baseNameAux (acc ++ [c]) rest

/-- Base name of a path: the last `/`-separated component. -/
def baseName (p : String) : String :=
  String.mk (baseNameAux [] p.data)

/-- Modelled from the spec: collecting a directory inserts one entry per
direct regular-file child (entry name → content); sub-directories are
silently skipped, with no recursion. -/
def collectEntries (m : Mapping) : List (String × Node) → Mapping
  | [] => m
  | e :: rest =>
    match e.2 with
    | Node.file c => collectEntries (mapInsert m e.1 c) rest
    | Node.dir _ => collectEntries m rest

/-- Modelled from the spec: collecting one volume path fails with the
offending path when it does not exist, inserts (baseName → content) for a
regular file, and collects the direct entries of a directory. -/
def collectPath (fs : FS) (m : Mapping) (p : String) : Except String Mapping :=
  match fs p with
  | none => Except.error p
  | some (Node.file c) => Except.ok (mapInsert m (baseName p) c)
  | some (Node.dir entries) => Except.ok (collectEntries m entries)

/-- Modelled from the spec: the Volume Collector `Collect(paths)` processes
the paths in the given order, aborting on the first inaccessible path. -/
def collect (fs : FS) : Mapping → List String → Except String Mapping
  | m, [] => Except.ok m
  | m, p :: rest =>
    match collectPath fs m p with
    | Except.error e => Except.error e
    | Except.ok m₂ => collect fs m₂ rest

/-- The names of the direct regular-file children of a directory listing. -/
def entryNames (entries : List (String × Node)) : List String :=
  entries.filterMap (fun e =>
    match e.2 with
    | Node.file _ => some e.1
    | Node.dir _ => none)

/-- The variable names one volume path contributes. -/
def pathNames (fs : FS) (p : String) : List String :=
  match fs p with
  | none => []
  | some (Node.file _) => [baseName p]
  | some (Node.dir entries) => entryNames entries

/-- All variable names encountered across a volume path list, in order. -/
def encNames (fs : FS) (paths : List String) : List String :=
  paths.flatMap (pathNames fs)

/- ===== Concrete environments for witnesses ===== -/

/-- An environment in which every external effect succeeds. -/
def envAllOk : Env :=
  { interpGet := interpreterGet
    openInput := fun _ => Except.ok ()
    generate := fun _ _ => Except.ok "rendered"
    openOutput := fun _ => Except.ok ()
    writeOk := fun _ => true }

/-- An environment in which generation fails. -/
def envGenFail : Env :=
  { envAllOk with generate := fun _ _ => Except.error "boom" }

/-- An environment in which opening the output path "bad" fails. -/
def envOutFail : Env :=
  { envAllOk with openOutput := fun p =>
      if p = "bad" then Except.error "nope" else Except.ok () }

/-- A file system with two files of the same base name under different
directories. -/
def fsCollision : FS := fun p =>
  if p = "a/x" then some (Node.file "1")
  else if p = "b/x" then some (Node.file "2")
  else none

/- ===== Helper lemmas ===== -/

theorem openOutputsLoop_all_ok (env : Env) (outs : List String)
    (h : ∀ p ∈ outs, env.openOutput p = Except.ok ()) :
    openOutputsLoop env outs = (none, outs) := by
  induction outs with
  | nil => rfl
  | cons p rest ih =>
    have hp : env.openOutput p = Except.ok () := h p (List.mem_cons_self p rest)
    have hrest := ih (fun q hq => h q (List.mem_cons_of_mem p hq))
    simp [openOutputsLoop, hp, hrest]

theorem openOutputsLoop_fail (env : Env) (pre : List String) (p : String)
    (rest : List String) (e : String)
    (hpre : ∀ q ∈ pre, env.openOutput q = Except.ok ())
    (hp : env.openOutput p = Except.error e) :
    openOutputsLoop env (pre ++ p :: rest) = (some (RunError.cantOpenOutput p e), pre) := by
  induction pre with
  | nil => simp [openOutputsLoop, hp]
  | cons q pre' ih =>
    have hq : env.openOutput q = Except.ok () := hpre q (List.mem_cons_self q pre')
    have h' := ih (fun r hr => hpre r (List.mem_cons_of_mem q hr))
    simp [openOutputsLoop, hq, h']

theorem openOutputsLoop_none_iff (env : Env) (outs : List String) :
    (openOutputsLoop env outs).1 = none ↔ ∀ p ∈ outs, env.openOutput p = Except.ok () := by
  induction outs with
  | nil => simp [openOutputsLoop]
  | cons p rest ih =>
    cases hp : env.openOutput p with
    | error e =>
      simp only [openOutputsLoop, hp]
      constructor
      · intro h; cases h
      · intro h
        have := h p (List.mem_cons_self p rest)
        rw [hp] at this
        cases this
    | ok u =>
      cases u
      simp only [openOutputsLoop, hp]
      constructor
      · intro h
        intro q hq
        rcases List.mem_cons.mp hq with hq | hq
        · rw [hq]; exact hp
        · exact (ih.mp h) q hq
      · intro h
        exact ih.mpr (fun q hq => h q (List.mem_cons_of_mem p hq))

theorem openOutputsLoop_some (env : Env) (outs : List String) (err : RunError)
    (h : (openOutputsLoop env outs).1 = some err) :
    ∃ p e, p ∈ outs ∧ env.openOutput p = Except.error e ∧
      err = RunError.cantOpenOutput p e := by
  induction outs with
  | nil => simp [openOutputsLoop] at h
  | cons p rest ih =>
    cases hp : env.openOutput p with
    | error e =>
      simp only [openOutputsLoop, hp] at h
      cases h
      exact ⟨p, e, List.mem_cons_self p rest, hp, rfl⟩
    | ok u =>
      simp only [openOutputsLoop, hp] at h
      rcases ih h with ⟨q, e, hq, he, heq⟩
      exact ⟨q, e, List.mem_cons_of_mem p hq, he, heq⟩

theorem writeLoop_map (env : Env) (content : String) (i : Nat) (outs : List String) :
    (writeLoop env content i outs).map (fun w => (w.path, w.content)) =
      outs.map (fun p => (p, content)) := by
  induction outs generalizing i with
  | nil => rfl
  | cons p rest ih => simp [writeLoop, ih]

theorem run_all_ok (env : Env) (n i : String) (outs vols : List String)
    (r : Interpreter) (content : String)
    (h1 : env.interpGet n = some r) (h2 : env.openInput i = Except.ok ())
    (h3 : env.generate r vols = Except.ok content)
    (h4 : ∀ p ∈ outs, env.openOutput p = Except.ok ()) :
    run env n i outs vols =
      (none,
       { inputOpened := true, generateCalled := true, outputsOpened := outs,
         outputsClosed := outs.reverse, writes := writeLoop env content 0 outs }) := by
  simp [run, h1, h2, h3, openOutputsLoop_all_ok env outs h4]

theorem writeLoop_map_path (env : Env) (content : String) (i : Nat) (outs : List String) :
    (writeLoop env content i outs).map (fun w => w.path) = outs := by
  induction outs generalizing i with
  | nil => rfl
  | cons p rest ih => simp [writeLoop, ih]

theorem run_fst_after_generate (env : Env) (n i : String) (outs vols : List String)
    (r : Interpreter) (content : String)
    (h1 : env.interpGet n = some r) (h2 : env.openInput i = Except.ok ())
    (h3 : env.generate r vols = Except.ok content) :
    (run env n i outs vols).1 = (openOutputsLoop env outs).1 := by
  simp only [run, h1, h2, h3]
  rcases hlp : openOutputsLoop env outs with ⟨err, opened⟩
  cases err <;> simp [hlp]

theorem exitCode_eq_zero_iff (result : Option RunError × Trace) :
    exitCode result = 0 ↔ result.1 = none := by
  obtain ⟨o, t⟩ := result
  cases o <;> simp [exitCode]

theorem foldl_stringsFlagSet (occs : List String) (init : List String) :
    occs.foldl stringsFlagSet init = init ++ occs := by
  induction occs generalizing init with
  | nil => simp
  | cons v rest ih => simp [stringsFlagSet, ih]

/- ===== Claim theorems ===== -/

/-- C1: whenever generation fails (the generation step — which performs the
volume collection and the render — returns an error), `run` returns the
wrapped generation error, the process exit code is non-zero, and no output
destination was opened or written. -/
theorem generate_failure_no_output (env : Env) (n i : String) (outs vols : List String)
    (r : Interpreter) (e : String)
    (h1 : env.interpGet n = some r) (h2 : env.openInput i = Except.ok ())
    (h3 : env.generate r vols = Except.error e) :
    run env n i outs vols =
      (some (RunError.cantGenerate e),
       { inputOpened := true, generateCalled := true, outputsOpened := [],
         outputsClosed := [], writes := [] }) ∧
    exitCode (run env n i outs vols) = 1 := by
  have h : run env n i outs vols =
      (some (RunError.cantGenerate e),
       { inputOpened := true, generateCalled := true, outputsOpened := [],
         outputsClosed := [], writes := [] }) := by
    simp [run, h1, h2, h3]
  exact ⟨h, by rw [h]; rfl⟩

/-- Witness for C1 at a concrete environment whose generation step fails. -/
theorem generate_failure_no_output_w :
    run envGenFail "jsonnet" "-" ["o"] [] =
      (some (RunError.cantGenerate "boom"),
       { inputOpened := true, generateCalled := true, outputsOpened := [],
         outputsClosed := [], writes := [] }) ∧
    exitCode (run envGenFail "jsonnet" "-" ["o"] []) = 1 :=
  generate_failure_no_output envGenFail "jsonnet" "-" ["o"] []
    Interpreter.jsonnet "boom" rfl rfl rfl

/-- C2: for every successful run, the identical full rendered content is
written to every configured output destination, in the order the
destinations were given. -/
theorem fanout_identical (env : Env) (n i : String) (outs vols : List String)
    (r : Interpreter) (content : String)
    (h1 : env.interpGet n = some r) (h2 : env.openInput i = Except.ok ())
    (h3 : env.generate r vols = Except.ok content)
    (h4 : ∀ p ∈ outs, env.openOutput p = Except.ok ()) :
    (run env n i outs vols).1 = none ∧
    (run env n i outs vols).2.writes.map (fun w => (w.path, w.content)) =
      outs.map (fun p => (p, content)) := by
  have h := run_all_ok env n i outs vols r content h1 h2 h3 h4
  rw [h]
  exact ⟨rfl, writeLoop_map env content 0 outs⟩

/-- Witness for C2 at a concrete all-succeeding environment with two
destinations. -/
theorem fanout_identical_w :
    (run envAllOk "jsonnet" "-" ["o1", "o2"] []).1 = none ∧
    (run envAllOk "jsonnet" "-" ["o1", "o2"] []).2.writes.map (fun w => (w.path, w.content)) =
      (["o1", "o2"] : List String).map (fun p => (p, "rendered")) :=
  fanout_identical envAllOk "jsonnet" "-" ["o1", "o2"] []
    Interpreter.jsonnet "rendered" rfl rfl rfl (fun _ _ => rfl)

/-- C3: an interpreter name outside the registry (whose only entries are
"plain" and "jsonnet") makes `run` fail with the unsupported-interpreter
error before any file I/O: the input is not opened, the generation step
(the only place volume paths are read) is never invoked, and no output is
opened or written. -/
theorem unknown_interpreter_no_io (env : Env) (n i : String) (outs vols : List String)
    (hreg : env.interpGet = interpreterGet)
    (hn1 : n ≠ "plain") (hn2 : n ≠ "jsonnet") :
    run env n i outs vols =
      (some (RunError.unsupportedInterpreter n),
       { inputOpened := false, generateCalled := false, outputsOpened := [],
         outputsClosed := [], writes := [] }) ∧
    exitCode (run env n i outs vols) = 1 := by
  have hnone : env.interpGet n = none := by
    rw [hreg]
    simp [interpreterGet, hn1, hn2]
  have h : run env n i outs vols =
      (some (RunError.unsupportedInterpreter n),
       { inputOpened := false, generateCalled := false, outputsOpened := [],
         outputsClosed := [], writes := [] }) := by
    simp [run, hnone]
  exact ⟨h, by rw [h]; rfl⟩

/-- Witness for C3 at a concrete unregistered interpreter name. -/
theorem unknown_interpreter_no_io_w :
    run envAllOk "gotpl" "-" ["o"] ["vol"] =
      (some (RunError.unsupportedInterpreter "gotpl"),
       { inputOpened := false, generateCalled := false, outputsOpened := [],
         outputsClosed := [], writes := [] }) ∧
    exitCode (run envAllOk "gotpl" "-" ["o"] ["vol"]) = 1 :=
  unknown_interpreter_no_io envAllOk "gotpl" "-" ["o"] ["vol"] rfl
    (by decide) (by decide)

/-- C5: given that the earlier stages succeeded, the run reports success
exactly when opening every configured output destination succeeded, and
any failure it reports is the open error naming a failing output path. -/
theorem output_open_gates_success (env : Env) (n i : String) (outs vols : List String)
    (r : Interpreter) (content : String)
    (h1 : env.interpGet n = some r) (h2 : env.openInput i = Except.ok ())
    (h3 : env.generate r vols = Except.ok content) :
    ((run env n i outs vols).1 = none ↔ ∀ p ∈ outs, env.openOutput p = Except.ok ()) ∧
    (∀ err, (run env n i outs vols).1 = some err →
      ∃ p e, p ∈ outs ∧ env.openOutput p = Except.error e ∧
        err = RunError.cantOpenOutput p e) ∧
    (exitCode (run env n i outs vols) = 0 ↔ ∀ p ∈ outs, env.openOutput p = Except.ok ()) := by
  have hfst := run_fst_after_generate env n i outs vols r content h1 h2 h3
  refine ⟨?_, ?_, ?_⟩
  · rw [hfst]
    exact openOutputsLoop_none_iff env outs
  · intro err herr
    rw [hfst] at herr
    exact openOutputsLoop_some env outs err herr
  · rw [exitCode_eq_zero_iff, hfst]
    exact openOutputsLoop_none_iff env outs

/-- Witness for C5 at a concrete environment with a failing output path. -/
theorem output_open_gates_success_w :
    ((run envOutFail "jsonnet" "-" ["bad"] []).1 = none ↔
      ∀ p ∈ (["bad"] : List String), envOutFail.openOutput p = Except.ok ()) ∧
    (∀ err, (run envOutFail "jsonnet" "-" ["bad"] []).1 = some err →
      ∃ p e, p ∈ (["bad"] : List String) ∧ envOutFail.openOutput p = Except.error e ∧
        err = RunError.cantOpenOutput p e) ∧
    (exitCode (run envOutFail "jsonnet" "-" ["bad"] []) = 0 ↔
      ∀ p ∈ (["bad"] : List String), envOutFail.openOutput p = Except.ok ()) :=
  output_open_gates_success envOutFail "jsonnet" "-" ["bad"] []
    Interpreter.jsonnet "rendered" rfl rfl rfl

/-- C6: once all output destinations are opened, the write loop visits
every opened output whatever the individual write outcomes are: for every
choice of per-write outcome the attempted writes cover exactly the
configured destinations, and `run` remains a total function (no crash). -/
theorem write_loop_visits_all (env : Env) (n i : String) (outs vols : List String)
    (r : Interpreter) (content : String)
    (h1 : env.interpGet n = some r) (h2 : env.openInput i = Except.ok ())
    (h3 : env.generate r vols = Except.ok content)
    (h4 : ∀ p ∈ outs, env.openOutput p = Except.ok ())
    (wOk : Nat → Bool) :
    (run { env with writeOk := wOk } n i outs vols).2.writes.map (fun w => w.path) = outs := by
  have h := run_all_ok { env with writeOk := wOk } n i outs vols r content h1 h2 h3 h4
  rw [h]
  exact writeLoop_map_path { env with writeOk := wOk } content 0 outs

/-- Witness for C6 at a concrete environment where every write fails. -/
theorem write_loop_visits_all_w :
    (run { envAllOk with writeOk := fun _ => false } "jsonnet" "-" ["o1", "o2"] []).2.writes.map
      (fun w => w.path) = ["o1", "o2"] :=
  write_loop_visits_all envAllOk "jsonnet" "-" ["o1", "o2"] []
    Interpreter.jsonnet "rendered" rfl rfl rfl (fun _ _ => rfl) (fun _ => false)

/-- C9: whenever the interpreter lookup, the input open, the generation and
all output opens succeed, `run` returns nil (exit code 0) for every choice
of per-write outcomes: the results of the individual writes are discarded
and never affect the reported outcome. -/
theorem write_results_discarded (env : Env) (n i : String) (outs vols : List String)
    (r : Interpreter) (content : String)
    (h1 : env.interpGet n = some r) (h2 : env.openInput i = Except.ok ())
    (h3 : env.generate r vols = Except.ok content)
    (h4 : ∀ p ∈ outs, env.openOutput p = Except.ok ())
    (wOk : Nat → Bool) :
    (run { env with writeOk := wOk } n i outs vols).1 = none ∧
    exitCode (run { env with writeOk := wOk } n i outs vols) = 0 := by
  have h := run_all_ok { env with writeOk := wOk } n i outs vols r content h1 h2 h3 h4
  rw [h]
  exact ⟨rfl, rfl⟩

/-- Witness for C9 at a concrete environment where every write fails. -/
theorem write_results_discarded_w :
    (run { envAllOk with writeOk := fun _ => false } "jsonnet" "-" ["o"] []).1 = none ∧
    exitCode (run { envAllOk with writeOk := fun _ => false } "jsonnet" "-" ["o"] []) = 0 :=
  write_results_discarded envAllOk "jsonnet" "-" ["o"] []
    Interpreter.jsonnet "rendered" rfl rfl rfl (fun _ _ => rfl) (fun _ => false)

/-- C10: if opening an output fails, every destination earlier in the list
was already opened (and is closed by the deferred closes) while no content
was written to any sink. -/
theorem later_open_failure_earlier_opened (env : Env) (n i : String) (vols : List String)
    (r : Interpreter) (content : String) (pre : List String) (p : String)
    (rest : List String) (e : String)
    (h1 : env.interpGet n = some r) (h2 : env.openInput i = Except.ok ())
    (h3 : env.generate r vols = Except.ok content)
    (hpre : ∀ q ∈ pre, env.openOutput q = Except.ok ())
    (hp : env.openOutput p = Except.error e) :
    run env n i (pre ++ p :: rest) vols =
      (some (RunError.cantOpenOutput p e),
       { inputOpened := true, generateCalled := true, outputsOpened := pre,
         outputsClosed := pre.reverse, writes := [] }) := by
  simp [run, h1, h2, h3, openOutputsLoop_fail env pre p rest e hpre hp]

/-- Witness for C10: a concrete run in which the second of three outputs
fails to open, with the first already opened and nothing written. -/
theorem later_open_failure_earlier_opened_w :
    run envOutFail "jsonnet" "-" (["good"] ++ "bad" :: ["later"]) [] =
      (some (RunError.cantOpenOutput "bad" "nope"),
       { inputOpened := true, generateCalled := true, outputsOpened := ["good"],
         outputsClosed := (["good"] : List String).reverse, writes := [] }) :=
  later_open_failure_earlier_opened envOutFail "jsonnet" "-" []
    Interpreter.jsonnet "rendered" ["good"] "bad" ["later"] "nope" rfl rfl rfl
    (by
      intro q hq
      rw [List.mem_singleton] at hq
      subst hq
      rfl)
    rfl

/-- C7: the CLI defaults — interpreter name "jsonnet" when `-interpreter`
is absent, input "-" when `-in` is absent, and the single destination "-"
when no `-out` flag is given. -/
theorem cli_defaults :
    (∀ (inF : Option String) (outs : List String),
      (mainConfig none inF outs).InterpreterName = "jsonnet") ∧
    (∀ (nF : Option String) (outs : List String),
      (mainConfig nF none outs).In = "-") ∧
    (∀ (nF inF : Option String), (mainConfig nF inF []).Outs = ["-"]) := by
  refine ⟨?_, ?_, ?_⟩
  · intro inF outs
    unfold mainConfig
    dsimp only
    split <;> rfl
  · intro nF outs
    unfold mainConfig
    dsimp only
    split <;> rfl
  · intro nF inF
    rfl

/-- C8: the output set is an ordered sequence with no uniqueness
constraint — each repeated `-out` flag appends its value in order, the
same destination may appear twice, and each occurrence receives its own
independent write of the rendered content. -/
theorem output_set_ordered_dup :
    (∀ (s : List String) (v : String), stringsFlagSet s v = s ++ [v]) ∧
    (∀ occs : List String, occs.foldl stringsFlagSet [] = occs) ∧
    ((run envAllOk "jsonnet" "-" ["dup", "dup"] []).2.writes.map
      (fun w => (w.path, w.content)) = [("dup", "rendered"), ("dup", "rendered")]) := by
  refine ⟨fun s v => rfl, fun occs => by simp [foldl_stringsFlagSet], ?_⟩
  rfl

/- ===== Collector lemmas ===== -/

theorem mapInsert_keys (m : Mapping) (k v : String) :
    (mapInsert m k v).map Prod.fst =
      if k ∈ m.map Prod.fst then m.map Prod.fst else m.map Prod.fst ++ [k] := by
  induction m with
  | nil => simp [mapInsert]
  | cons e rest ih =>
    obtain ⟨k', v'⟩ := e
    by_cases h : k' = k
    · subst h
      simp [mapInsert]
    · have h2 : ¬ k = k' := fun hh => h hh.symm
      simp only [mapInsert, if_neg h, List.map_cons, List.mem_cons, h2, false_or]
      rw [ih]
      by_cases hk : k ∈ rest.map Prod.fst
      · simp [hk]
      · simp [hk]

theorem mapInsert_keys_mem (a : String) (m : Mapping) (k v : String) :
    a ∈ (mapInsert m k v).map Prod.fst ↔ a ∈ m.map Prod.fst ∨ a = k := by
  rw [mapInsert_keys]
  by_cases hk : k ∈ m.map Prod.fst
  · simp only [if_pos hk]
    constructor
    · exact Or.inl
    · rintro (h | rfl)
      · exact h
      · exact hk
  · simp [if_neg hk]

theorem mapInsert_keys_nodup (m : Mapping) (k v : String)
    (h : (m.map Prod.fst).Nodup) : ((mapInsert m k v).map Prod.fst).Nodup := by
  rw [mapInsert_keys]
  by_cases hk : k ∈ m.map Prod.fst
  · simpa [if_pos hk] using h
  · simp only [if_neg hk]
    simp [List.nodup_append, h, hk]

theorem collectEntries_keys_nodup (entries : List (String × Node)) (m : Mapping)
    (h : (m.map Prod.fst).Nodup) : ((collectEntries m entries).map Prod.fst).Nodup := by
  induction entries generalizing m with
  | nil => exact h
  | cons e rest ih =>
    obtain ⟨nm, nd⟩ := e
    cases nd with
    | file c => exact ih (mapInsert m nm c) (mapInsert_keys_nodup m nm c h)
    | dir es => exact ih m h

theorem collectEntries_keys_mem (a : String) (entries : List (String × Node)) (m : Mapping) :
    a ∈ (collectEntries m entries).map Prod.fst ↔
      a ∈ m.map Prod.fst ∨ a ∈ entryNames entries := by
  induction entries generalizing m with
  | nil => simp [collectEntries, entryNames]
  | cons e rest ih =>
    obtain ⟨nm, nd⟩ := e
    cases nd with
    | file c =>
      simp only [collectEntries, entryNames, List.filterMap_cons]
      rw [ih (mapInsert m nm c)]
      rw [mapInsert_keys_mem]
      simp only [entryNames, List.mem_cons]
      tauto
    | dir es =>
      simp only [collectEntries, entryNames, List.filterMap_cons]
      exact ih m

theorem collectPath_ok_nodup (fs : FS) (m m₂ : Mapping) (p : String)
    (h : collectPath fs m p = Except.ok m₂) (hm : (m.map Prod.fst).Nodup) :
    (m₂.map Prod.fst).Nodup := by
  unfold collectPath at h
  cases hfs : fs p with
  | none =>
    rw [hfs] at h
    cases h
  | some nd =>
    cases nd with
    | file c =>
      rw [hfs] at h
      cases h
      exact mapInsert_keys_nodup m (baseName p) c hm
    | dir entries =>
      rw [hfs] at h
      cases h
      exact collectEntries_keys_nodup entries m hm

theorem collectPath_ok_mem (fs : FS) (m m₂ : Mapping) (p : String) (a : String)
    (h : collectPath fs m p = Except.ok m₂) :
    a ∈ m₂.map Prod.fst ↔ a ∈ m.map Prod.fst ∨ a ∈ pathNames fs p := by
  unfold collectPath at h
  cases hfs : fs p with
  | none =>
    rw [hfs] at h
    cases h
  | some nd =>
    cases nd with
    | file c =>
      rw [hfs] at h
      cases h
      rw [mapInsert_keys_mem]
      simp only [pathNames, hfs, List.mem_singleton]
    | dir entries =>
      rw [hfs] at h
      cases h
      rw [collectEntries_keys_mem]
      simp only [pathNames, hfs]

theorem collect_ok_nodup (fs : FS) (paths : List String) (m m' : Mapping)
    (h : collect fs m paths = Except.ok m') (hm : (m.map Prod.fst).Nodup) :
    (m'.map Prod.fst).Nodup := by
  induction paths generalizing m with
  | nil =>
    unfold collect at h
    cases h
    exact hm
  | cons p rest ih =>
    unfold collect at h
    cases hcp : collectPath fs m p with
    | error e =>
      simp only [hcp] at h
      exact Except.noConfusion h
    | ok m₂ =>
      simp only [hcp] at h
      exact ih m₂ h (collectPath_ok_nodup fs m m₂ p hcp hm)

theorem collect_ok_mem (fs : FS) (paths : List String) (m m' : Mapping)
    (h : collect fs m paths = Except.ok m') (a : String) :
    a ∈ m'.map Prod.fst ↔ a ∈ m.map Prod.fst ∨ a ∈ encNames fs paths := by
  induction paths generalizing m with
  | nil =>
    unfold collect at h
    cases h
    simp [encNames]
  | cons p rest ih =>
    unfold collect at h
    cases hcp : collectPath fs m p with
    | error e =>
      simp only [hcp] at h
      exact Except.noConfusion h
    | ok m₂ =>
      simp only [hcp] at h
      rw [ih m₂ h, collectPath_ok_mem fs m m₂ p a hcp]
      simp only [encNames, List.flatMap_cons, List.mem_append]
      tauto

theorem lookupM_mapInsert_self (m : Mapping) (k v : String) :
    lookupM (mapInsert m k v) k = some v := by
  induction m with
  | nil => simp [mapInsert, lookupM]
  | cons e rest ih =>
    obtain ⟨k', v'⟩ := e
    by_cases h : k' = k
    · subst h
      simp [mapInsert, lookupM]
    · simp [mapInsert, lookupM, h, ih]

theorem lookupM_mapInsert_other (m : Mapping) (k k' v : String) (h : k' ≠ k) :
    lookupM (mapInsert m k' v) k = lookupM m k := by
  induction m with
  | nil => simp [mapInsert, lookupM, h]
  | cons e rest ih =>
    obtain ⟨a, b⟩ := e
    by_cases ha : a = k'
    · subst ha
      simp [mapInsert, lookupM, h]
    · simp only [mapInsert, if_neg ha, lookupM]
      by_cases hak : a = k
      · simp [hak]
      · simp [hak, ih]

theorem collect_append (fs : FS) (l₁ l₂ : List String) (m : Mapping) :
    collect fs m (l₁ ++ l₂) =
      match collect fs m l₁ with
      | Except.error e => Except.error e
      | Except.ok m₁ => collect fs m₁ l₂ := by
  induction l₁ generalizing m with
  | nil => simp [collect]
  | cons p rest ih =>
    simp only [List.cons_append, collect]
    cases hcp : collectPath fs m p with
    | error e => simp
    | ok m₂ => simp [ih]

/-- C4: the Variable Mapping built by the Volume Collector has exactly one
entry per distinct base name encountered (unique keys, and a key is
present iff it was encountered on some path), and on a name collision the
later writer wins: inserting a colliding key overwrites the value while
leaving other keys untouched, and appending a file path to the path list
makes its content the final value for its base name — as witnessed
concretely by two files sharing the base name "x". -/
theorem collector_mapping_lww :
    (∀ (fs : FS) (paths : List String) (m' : Mapping),
      collect fs [] paths = Except.ok m' →
        (m'.map Prod.fst).Nodup ∧ ∀ a, a ∈ m'.map Prod.fst ↔ a ∈ encNames fs paths) ∧
    (∀ (m : Mapping) (k v : String), lookupM (mapInsert m k v) k = some v) ∧
    (∀ (m : Mapping) (k k' v : String), k' ≠ k →
      lookupM (mapInsert m k' v) k = lookupM m k) ∧
    (∀ (fs : FS) (m : Mapping) (paths : List String) (m₁ : Mapping) (p c : String),
      collect fs m paths = Except.ok m₁ → fs p = some (Node.file c) →
        collect fs m (paths ++ [p]) = Except.ok (mapInsert m₁ (baseName p) c)) ∧
    (collect fsCollision [] ["a/x", "b/x"] = Except.ok [("x", "2")] ∧
      lookupM [("x", "2")] "x" = some "2") := by
  refine ⟨?_, lookupM_mapInsert_self, ?_, ?_, ?_, ?_⟩
  · intro fs paths m' h
    refine ⟨collect_ok_nodup fs paths [] m' h (by simp), fun a => ?_⟩
    have := collect_ok_mem fs paths [] m' h a
    simpa using this
  · intro m k k' v h
    exact lookupM_mapInsert_other m k k' v h
  · intro fs m paths m₁ p c h hp
    rw [collect_append]
    simp [h, collect, collectPath, hp]
  · rfl
  · rfl

/-- Witness for C4: the uniqueness and membership facts instantiated at the
concrete colliding file system, and the overwrite facts at concrete
mappings. -/
theorem collector_mapping_lww_w :
    (([("x", "2")] : Mapping).map Prod.fst).Nodup ∧
    lookupM (mapInsert ([("y", "0")] : Mapping) "x" "1") "x" = some "1" ∧
    lookupM (mapInsert ([("y", "0")] : Mapping) "x" "1") "y" = lookupM [("y", "0")] "y" ∧
    collect fsCollision [] (["a/x"] ++ ["b/x"]) =
      Except.ok (mapInsert [("x", "1")] (baseName "b/x") "2") :=
  ⟨(collector_mapping_lww.1 fsCollision ["a/x", "b/x"] [("x", "2")] rfl).1,
   collector_mapping_lww.2.1 [("y", "0")] "x" "1",
   collector_mapping_lww.2.2.1 [("y", "0")] "y" "x" "1" (by decide),
   collector_mapping_lww.2.2.2.1 fsCollision [] ["a/x"] [("x", "1")] "b/x" "2" rfl rfl⟩

end CfGenerator
